import Mathlib

/-!
Shallow embedding of the Caffe frontend translator
(`python/tvm/relay/frontend/caffe.py`) and proofs about its
graph normalizer, BatchNorm/Scale fusion pass, per-operator attribute
derivation and error behaviour.

Conventions of the embedding:
* protobuf repeated fields become `List`s, numeric blob data becomes `List ℚ`
  (float32 arithmetic is modelled exactly over ℚ; the claims under study are
  structural, not about rounding);
* Python code that can raise becomes `Except PyErr _`; list indexing,
  dict lookup and numpy truthiness are modelled by `pyIndex`, `dictGet`
  and `npTruthy`;
* the target-IR helpers (`AttrCvt`, `ExprTable.new_const`, `_op.*`) that live
  outside the translated file are modelled by the constructors of `Expr`:
  a call `AttrCvt(op_name=o)([a1, a2], attrs)` becomes `Expr.call o [a1, a2] attrs`,
  and `new_const` becomes `Expr.const shape data`;
* `_infer_shape` (the external shape-inference engine) is passed in as an
  explicit shape argument or oracle function where a conversion routine uses it.
-/

namespace Caffe

/-- One learned parameter blob: flat numeric data plus a shape
(`BlobProto` of the external model description). -/
structure BlobProto where
  data : List ℚ := []
  shape : List Nat := []
deriving DecidableEq, Repr, Inhabited

/-- `ConvolutionParam` attributes read by `_parse_conv_params`
(uint32 fields default to 0, repeated fields to the empty list). -/
structure ConvolutionParam where
  kernel_h : Nat := 0
  kernel_w : Nat := 0
  kernel_size : List Nat := []
  pad_h : Nat := 0
  pad_w : Nat := 0
  pad : List Nat := []
  stride_h : Nat := 0
  stride_w : Nat := 0
  stride : List Nat := []
  dilation : List Nat := []
  group : Nat := 1
  num_output : Nat := 0
deriving DecidableEq, Repr, Inhabited

/-- `EltwiseParam`: operation enum (0 = PROD, 1 = SUM, 2 = MAX, the protobuf
default is SUM) and the repeated `coeff` field. -/
structure EltwiseParam where
  operation : Nat := 1
  coeff : List ℚ := []
deriving DecidableEq, Repr, Inhabited

/-- `BatchNormParam`: only `eps` is read by the converter (proto default 1e-5). -/
structure BatchNormParam where
  eps : ℚ := 1 / 100000
deriving DecidableEq, Repr, Inhabited

/-- `ScaleParam` attributes read by the converter. -/
structure ScaleParam where
  bias_term : Bool := false
  axis : Int := 1
deriving DecidableEq, Repr, Inhabited

/-- `ReshapeParam`: target shape and the axis window it applies to. -/
structure ReshapeParam where
  dim : List Int := []
  axis : Int := 0
  num_axes : Int := -1
deriving DecidableEq, Repr, Inhabited

/-- One layer of the model description: the fields of protobuf
`LayerParameter` that the translated file reads.  `blobs` is populated for
entries of the weight net (`init_layer_dict`). -/
structure LayerParameter where
  name : String := ""
  type : String := ""
  bottom : List String := []
  top : List String := []
  blobs : List BlobProto := []
  convolution_param : ConvolutionParam := {}
  eltwise_param : EltwiseParam := {}
  batch_norm_param : BatchNormParam := {}
  scale_param : ScaleParam := {}
  reshape_param : ReshapeParam := {}
deriving DecidableEq, Repr, Inhabited

/-- Errors a conversion can surface.  `exception` is Python's plain
`raise Exception(msg)`, `opNotImplemented` is `tvm.error.OpNotImplemented`,
the others are the builtin Python exception kinds the code can hit. -/
inductive PyErr where
  | indexError
  | keyError (k : String)
  | valueError
  | assertionError (msg : String)
  | opNotImplemented (ops : List String)
  | exception (msg : String)
  | evalError
deriving DecidableEq, Repr, Inhabited

/-- Attribute values attached to an IR operator call. -/
inductive AttrVal where
  | i (n : Int)
  | f (q : ℚ)
  | b (v : Bool)
  | s (v : String)
  | li (l : List Int)
  | lq (l : List ℚ)
deriving DecidableEq, Repr, Inhabited

/-- Target-IR expressions, as far as the frontend builds them. -/
inductive Expr where
  | var (name : String)
  | const (shape : List Nat) (data : List ℚ)
  | call (op : String) (args : List Expr) (attrs : List (String × AttrVal))
  | tuple (items : List Expr)
  | tupleGetItem (e : Expr) (idx : Nat)
deriving Repr, Inhabited

/-- Python list indexing `l[i]` for a non-negative index: `IndexError` when
out of range. -/
def pyIndex {α : Type} (l : List α) (i : Nat) : Except PyErr α :=
  match l[i]? with
  | some x => .ok x
  | none => .error .indexError

/-- Python dict lookup `d[k]`: `KeyError` when the key is absent.  Dicts are
modelled as association lists with unique keys. -/
def dictGet {α : Type} (d : List (String × α)) (k : String) : Except PyErr α :=
  match List.lookup k d with
  | some v => .ok v
  | none => .error (.keyError k)

/-- Truthiness of a numpy array (`if arr:`): a one-element array is truthy
iff its element is nonzero, an empty array is falsy (numpy 1.x behaviour,
with a deprecation warning), a longer array raises `ValueError`. -/
def npTruthy (a : List ℚ) : Except PyErr Bool :=
  match a with
  | [] => .ok false
  | [x] => .ok (if x = 0 then false else true)
  | _ => .error .valueError

/-- Elementwise numpy multiplication of two 1-d arrays with broadcasting:
a one-element operand broadcasts over the other, equal lengths multiply
pointwise, anything else raises `ValueError`. -/
def npMul (a b : List ℚ) : Except PyErr (List ℚ) :=
  match a, b with
  | a, [y] => .ok (a.map (fun x => x * y))
  | [x], b => .ok (b.map (fun y => x * y))
  | a, b =>
    if a.length = b.length then .ok (List.zipWith (fun x y => x * y) a b)
    else .error .valueError

/-- Rewrite a list of tensor names through a rename dictionary
(`if plt in changed: pl.bottom[idx] = changed[plt]`).  The dictionary is an
association list whose first match is the binding (insertions that overwrite
an existing key are modelled by consing in front). -/
def rewriteNames (changed : List (String × String)) (names : List String) : List String :=
  names.map (fun b => (List.lookup b changed).getD b)

/-! ## Graph normalizer: `_rebuild_layers` -/

/-- The in-place test of `_rebuild_layers`: exactly one input, exactly one
output, and the two names coincide. -/
def inPlaceShape (pl : LayerParameter) : Bool :=
  match pl.bottom, pl.top with
  | [b], [t] => t = b
  | _, _ => false

/-- The in-place layers that `_rebuild_layers` actually renames: non-`Input`
layers passing `inPlaceShape` (`Input` pseudo-layers are skipped). -/
def inPlaceEff (pl : LayerParameter) : Bool :=
  pl.type ≠ "Input" && inPlaceShape pl

/-- Recursive core of `_rebuild_layers`.  `changed` is `changed_top_dict`
(tensor name → renaming layer's name, latest binding first), `restore` is
`top_change_before_dict` (layer name → original top name).  Returns the
rewritten layers and the final restore table. -/
def rebuildGo (changed restore : List (String × String)) :
    List LayerParameter → List LayerParameter × List (String × String)
  | [] => ([], restore)
  | pl :: rest =>
    if pl.type = "Input" then
      let r := rebuildGo changed restore rest
      (pl :: r.1, r.2)
    else if inPlaceShape pl then
      let pl2 := { pl with bottom := rewriteNames changed pl.bottom, top := [pl.name] }
      let t := pl.top.headD ""
      let r := rebuildGo ((t, pl.name) :: changed) ((pl.name, t) :: restore) rest
      (pl2 :: r.1, r.2)
    else
      let pl2 := { pl with bottom := rewriteNames changed pl.bottom }
      let r := rebuildGo changed restore rest
      (pl2 :: r.1, r.2)

/-- `_rebuild_layers`: resolve in-place layers into uniquely named outputs.
The Python function mutates `predict_layer` and returns
`top_change_before_dict`; here both the rewritten list and that table are
returned. -/
def _rebuild_layers (predict_layer : List LayerParameter) :
    List LayerParameter × List (String × String) :=
  rebuildGo [] [] predict_layer

/-- The rename dictionary accumulated by `_rebuild_layers` after processing a
prefix of the layer list, newest binding first. -/
def changedAfter (changed : List (String × String)) :
    List LayerParameter → List (String × String)
  | [] => changed
  | pl :: rest =>
    if inPlaceEff pl then changedAfter ((pl.top.headD "", pl.name) :: changed) rest
    else changedAfter changed rest

/-- What `_rebuild_layers` does to a single layer, given the rename
dictionary in force when it is visited. -/
def rebuildLayerStep (changed : List (String × String)) (pl : LayerParameter) :
    LayerParameter :=
  if pl.type = "Input" then pl
  else if inPlaceShape pl then
    { pl with bottom := rewriteNames changed pl.bottom, top := [pl.name] }
  else
    { pl with bottom := rewriteNames changed pl.bottom }

/-! ## Fusion pass: `fuse_op` and `op_fuse` -/

/-- The merged affine parameters cached in `self.new_bn[bn.name]`:
`[bn_mean, bn_var, bn_eps, scale_gamma, scale_beta]`. -/
structure BnFused where
  mean : List ℚ
  var : List ℚ
  eps : ℚ
  gamma : List ℚ
  beta : List ℚ
deriving DecidableEq, Repr, Inhabited

/-- `fuse_op`: derive the merged BatchNorm+Scale parameters from the two
layers' blobs.  Follows the source statement order (so the first failing
blob access determines the error): `blobs[2]` (the scale-count blob) is read
and, when truthy, inverted; mean and variance are multiplied by it; then the
Scale layer's gamma and optional beta are read. -/
def fuse_op (init_layer_dict : List (String × LayerParameter))
    (bn scale : LayerParameter) : Except PyErr BnFused := do
  let bnInit ← dictGet init_layer_dict bn.name
  let b2 ← pyIndex bnInit.blobs 2
  let truthy ← npTruthy b2.data
  let bn_scale := if truthy then b2.data.map (fun x => 1 / x) else b2.data
  let b0 ← pyIndex bnInit.blobs 0
  let bn_mean ← npMul b0.data bn_scale
  let b1 ← pyIndex bnInit.blobs 1
  let bn_var ← npMul b1.data bn_scale
  let bn_eps := bn.batch_norm_param.eps
  let scInit ← dictGet init_layer_dict scale.name
  let g ← pyIndex scInit.blobs 0
  let scale_gamma := g.data
  let scale_beta ←
    if scale.scale_param.bias_term then do
      let b ← pyIndex scInit.blobs 1
      pure b.data
    else
      pure (List.replicate scale_gamma.length (0 : ℚ))
  pure ⟨bn_mean, bn_var, bn_eps, scale_gamma, scale_beta⟩

/-- Result of `op_fuse`: the new layer list (`new_layers`), the redirection
record for dropped Scale outputs (`changed_layers`, in insertion order) and
the cached merged parameters (`new_bn`, in insertion order). -/
structure FuseOut where
  layers : List LayerParameter
  changed : List (String × String)
  newBn : List (String × BnFused)
deriving DecidableEq, Repr, Inhabited

/-- The redirection target recorded for a fused pair:
`bn.top[0]` when the BatchNorm has exactly one output, else `bn.name`. -/
def fuseTarget (bn : LayerParameter) : String :=
  if bn.top.length = 1 then bn.top.headD "" else bn.name

/-- Recursive core of `op_fuse`.  `prev` is the layer the Python code sees as
`predict_layer[index - 1]` (for the first layer that is `predict_layer[-1]`,
the last layer of the list); `tempBn`/`tempScale` model the
`temp_layers` dict.  Matches the source branch by branch, including the
`continue` on a BatchNorm followed by a Scale (which skips both the fusion
check and the bottom rewriting for that layer). -/
def opFuseGo (init_layer_dict : List (String × LayerParameter)) :
    Option LayerParameter → Option LayerParameter → Option LayerParameter →
    List (String × String) → List LayerParameter → List (String × BnFused) →
    List LayerParameter → Except PyErr FuseOut
  | _, _, _, changed, acc, nb, [] => .ok ⟨acc, changed, nb⟩
  | prev, tempBn, tempScale, changed, acc, nb, pl :: rest =>
    if pl.type = "Input" then
      opFuseGo init_layer_dict (some pl) tempBn tempScale changed (acc ++ [pl]) nb rest
    else if pl.type = "BatchNorm" then
      if (rest.head?).map LayerParameter.type = some "Scale" then
        opFuseGo init_layer_dict (some pl) (some pl) tempScale changed acc nb rest
      else
        opFuseGo init_layer_dict (some pl) none none changed
          (acc ++ [{ pl with bottom := rewriteNames changed pl.bottom }]) nb rest
    else if pl.type = "Scale" then
      if prev.map LayerParameter.type = some "BatchNorm" then
        match tempBn with
        | some bn => do
          let fused ← fuse_op init_layer_dict bn pl
          opFuseGo init_layer_dict (some pl) tempBn (some pl)
            (changed ++ [(pl.name, fuseTarget bn)]) (acc ++ [bn])
            (nb ++ [(bn.name, fused)]) rest
        | none =>
          opFuseGo init_layer_dict (some pl) tempBn (some pl) changed acc nb rest
      else
        opFuseGo init_layer_dict (some pl) none none changed
          (acc ++ [{ pl with bottom := rewriteNames changed pl.bottom }]) nb rest
    else
      opFuseGo init_layer_dict (some pl) none none changed
        (acc ++ [{ pl with bottom := rewriteNames changed pl.bottom }]) nb rest

/-- `op_fuse`: single forward scan fusing each BatchNorm that is immediately
followed by a Scale layer.  The first layer's "previous layer" is
`predict_layer[-1]`, i.e. the last layer, as in the Python indexing. -/
def op_fuse (predict_layer : List LayerParameter)
    (init_layer_dict : List (String × LayerParameter)) : Except PyErr FuseOut :=
  opFuseGo init_layer_dict predict_layer.getLast? none none [] [] [] predict_layer

/-! Adjacency-only descriptions of what `op_fuse` keeps, redirects and
caches.  `prevReal` is the actual previous layer (`none` before the first
iteration — the Python wrap-around `predict_layer[-1]` affects only the type
test, not the `temp_layers` state), `prevT` the type the code compares
against `"BatchNorm"`. -/

/-- Names of the layers kept by the fusion pass: every layer except a Scale
whose predecessor (in the code's sense) is a BatchNorm; a fused BatchNorm is
emitted at its own position.  No input-tensor names are consulted. -/
def fuseKeptNames (prevReal : Option LayerParameter) (prevT : Option String) :
    List LayerParameter → List String
  | [] => []
  | pl :: rest =>
    if pl.type = "Input" then pl.name :: fuseKeptNames (some pl) (some pl.type) rest
    else if pl.type = "BatchNorm" then
      if (rest.head?).map LayerParameter.type = some "Scale" then
        fuseKeptNames (some pl) (some pl.type) rest
      else
        pl.name :: fuseKeptNames (some pl) (some pl.type) rest
    else if pl.type = "Scale" then
      if prevT = some "BatchNorm" then
        (match prevReal with
         | some bn => [bn.name]
         | none => []) ++ fuseKeptNames (some pl) (some pl.type) rest
      else
        pl.name :: fuseKeptNames (some pl) (some pl.type) rest
    else
      pl.name :: fuseKeptNames (some pl) (some pl.type) rest

/-- The redirection entries produced by the fusion pass: one entry
`(scale.name, fuseTarget bn)` for every Scale whose real predecessor is a
BatchNorm. -/
def fuseChangedSpec (prevReal : Option LayerParameter) (prevT : Option String) :
    List LayerParameter → List (String × String)
  | [] => []
  | pl :: rest =>
    (if pl.type = "Scale" && prevT = some "BatchNorm" then
      (match prevReal with
       | some bn => [(pl.name, fuseTarget bn)]
       | none => [])
     else []) ++ fuseChangedSpec (some pl) (some pl.type) rest

/-- The names of the BatchNorm layers for which merged parameters are
cached: every BatchNorm immediately followed by a Scale. -/
def fusedBnNames (prevReal : Option LayerParameter) (prevT : Option String) :
    List LayerParameter → List String
  | [] => []
  | pl :: rest =>
    (if pl.type = "Scale" && prevT = some "BatchNorm" then
      (match prevReal with
       | some bn => [bn.name]
       | none => [])
     else []) ++ fusedBnNames (some pl) (some pl.type) rest

/-! ## Validation and pipeline front: `check_unsupported_ops`, `from_caffe` -/

/-- The keys of `self.convert_map` built in `OperatorConverter.__init__`. -/
def convert_map_keys : List String :=
  ["BatchNorm", "BN", "Concat", "Convolution", "DepthwiseConvolution", "Crop",
   "Deconvolution", "Dropout", "Eltwise", "Flatten", "InnerProduct", "Input",
   "LRN", "Normalize", "Permute", "Pooling", "PReLU", "PriorBox", "proposal",
   "PSROIPooling", "Python", "ReLU", "Reshape", "Resize", "ROIPooling",
   "Scale", "Sigmoid", "Slice", "Softmax", "TanH", "Upsample", "Power"]

/-- One step of collecting `unsupported_ops_set`: add a layer type to the
set unless it has a registered conversion routine. -/
def unsupStep (acc : List String) (t : String) : List String :=
  if t ∈ convert_map_keys then acc
  else if t ∈ acc then acc
  else acc ++ [t]

/-- The `unsupported_ops_set` collected by `check_unsupported_ops`: layer
types with no registered conversion routine.  The Python `set` is modelled
as a duplicate-free list in first-occurrence order. -/
def unsupportedOps (predict_layer : List LayerParameter) : List String :=
  predict_layer.foldl (fun acc pl => unsupStep acc pl.type) []

/-- `check_unsupported_ops`: raise one aggregated `OpNotImplemented` listing
every unsupported layer kind, or do nothing. -/
def check_unsupported_ops (predict_layer : List LayerParameter) : Except PyErr Unit :=
  let u := unsupportedOps predict_layer
  if u.isEmpty then .ok () else .error (.opNotImplemented u)

/-- The front of `from_caffe` up to and including the fusion pass: rebuild
the layers (in-place resolution), then validate the operator kinds, then
fuse.  Per-layer conversion (`convert_op_to_relay`) only happens after these
steps, so a validation failure aborts before any conversion work. -/
def from_caffe_front (predict_layer : List LayerParameter)
    (init_layer_dict : List (String × LayerParameter)) :
    Except PyErr (FuseOut × List (String × String)) := do
  let rb := _rebuild_layers predict_layer
  let _ ← check_unsupported_ops rb.1
  let fused ← op_fuse rb.1 init_layer_dict
  pure (fused, rb.2)

/-! ## `_parse_conv_params` -/

/-- The attribute dict built by `_parse_conv_params`. -/
structure ConvParsedParams where
  kernel_size : Nat × Nat
  padding : Nat × Nat
  strides : Nat × Nat
  dilation : Option (List Nat)
  kernel_layout : String
  data_layout : String
  groups : Nat
  channels : Nat
deriving DecidableEq, Repr, Inhabited

/-- `nonzone = lambda val, pos, dflt: val[pos] if pos < len(val) else dflt`. -/
def nonzone (val : List Nat) (pos : Nat) (dflt : Nat) : Nat :=
  if pos < val.length then val.getD pos dflt else dflt

/-- `_parse_conv_params`: kernel size, padding and stride each resolved from
the explicit `_h`/`_w` pair when either member is positive, else from the
generic repeated field with the second element defaulting to the first, else
from the fixed default (kernel 1, padding 0, stride 1). -/
def _parse_conv_params (cp : ConvolutionParam) : ConvParsedParams :=
  let kernel :=
    if cp.kernel_h > 0 || cp.kernel_w > 0 then (cp.kernel_h, cp.kernel_w)
    else
      let ksize_h := nonzone cp.kernel_size 0 1
      (ksize_h, nonzone cp.kernel_size 1 ksize_h)
  let padding :=
    if cp.pad_h > 0 || cp.pad_w > 0 then (cp.pad_h, cp.pad_w)
    else
      let pad_h := nonzone cp.pad 0 0
      (pad_h, nonzone cp.pad 1 pad_h)
  let strides :=
    if cp.stride_h > 0 || cp.stride_w > 0 then (cp.stride_h, cp.stride_w)
    else
      let stride_h := nonzone cp.stride 0 1
      (stride_h, nonzone cp.stride 1 stride_h)
  let dilation :=
    if cp.dilation.length > 0 then
      some (if cp.dilation.length = 1 then
              [cp.dilation.headD 1, cp.dilation.headD 1]
            else cp.dilation)
    else none
  ⟨kernel, padding, strides, dilation, "OIHW", "NCHW", cp.group, cp.num_output⟩

/-! ## `batch_norm` conversion -/

/-- `np.repeat(a, h*w).reshape((c, h, w))` followed by
`np.expand_dims(., 0).repeat(n, axis=0)`: per-channel values replicated over
the spatial extent and then over the batch.  The reshape raises `ValueError`
unless the element counts agree. -/
def npRepeatReshapeExpand (a : List ℚ) (n c h w : Nat) : Except PyErr (List ℚ) :=
  if a.length * (h * w) = c * (h * w) then
    .ok (((List.range n).map
      (fun _ => (a.map (fun x => List.replicate (h * w) x)).flatten)).flatten)
  else .error .valueError

/-- `batch_norm` conversion routine.  `in_shape` is `_infer_shape(in_expr)`
(the external shape-inference oracle).  When the layer was fused, the cached
`new_bn` parameters are used (negative variances clamped to 0); otherwise
the blobs of `init_layer_dict` are read: with exactly two blobs the layer is
emitted as `multiply` followed by `add` of the broadcast statistics, with a
third scale-count blob the statistics are rescaled by its reciprocal (when
nonzero) and a `batch_norm` operation is emitted. -/
def batch_norm (op : LayerParameter) (in_expr : Expr) (in_shape : List Nat)
    (new_bn : List (String × BnFused))
    (init_layer_dict : List (String × LayerParameter)) : Except PyErr Expr := do
  let nchw ← (match in_shape with
    | [h, w] => .ok (1, 1, h, w)
    | [n, c, h, w] => .ok (n, c, h, w)
    | _ => .error PyErr.valueError)
  let n := nchw.1
  let c := nchw.2.1
  let h := nchw.2.2.1
  let w := nchw.2.2.2
  match List.lookup op.name new_bn with
  | some f =>
    let var2 := f.var.map (fun x => max x 0)
    let out := Expr.call "batch_norm"
      [in_expr, .const [f.gamma.length] f.gamma, .const [f.beta.length] f.beta,
       .const [f.mean.length] f.mean, .const [var2.length] var2]
      [("epsilon", .f f.eps), ("scale", .b true)]
    .ok (.tupleGetItem out 0)
  | none => do
    let il ← dictGet init_layer_dict op.name
    let b0 ← pyIndex il.blobs 0
    let b1 ← pyIndex il.blobs 1
    let mean := b0.data
    let var := b1.data
    if il.blobs.length = 2 then do
      let mean4 ← npRepeatReshapeExpand mean n c h w
      let var4 ← npRepeatReshapeExpand var n c h w
      .ok (.call "add"
        [.call "multiply" [in_expr, .const [n, c, h, w] mean4] [],
         .const [n, c, h, w] var4] [])
    else do
      let b2 ← pyIndex il.blobs 2
      let truthy ← npTruthy b2.data
      let scale := if truthy then b2.data.map (fun x => 1 / x) else b2.data
      let mean2 ← npMul mean scale
      let var2 ← npMul var scale
      let out := Expr.call "batch_norm"
        [in_expr, .const [mean.length] (List.replicate mean.length (1 : ℚ)),
         .const [mean.length] (List.replicate mean.length (0 : ℚ)),
         .const [mean2.length] mean2, .const [var2.length] var2]
        [("epsilon", .f op.batch_norm_param.eps), ("scale", .b false)]
      .ok (.tupleGetItem out 0)

/-! ## `eltwise` conversion -/

/-- A Python `assert cond, msg`. -/
def pyAssert (c : Prop) [Decidable c] (msg : String) : Except PyErr Unit :=
  if c then .ok () else .error (.assertionError msg)

/-- `ExprTable.get_expr` of the external symbol table: the binding of a
tensor name, failing when the name is unbound. -/
def get_expr (exp_tab : List (String × Expr)) (name : String) : Except PyErr Expr :=
  dictGet exp_tab name

/-- `eltwise` conversion routine.  `shape_of` is the `_infer_shape` oracle.
Exactly two same-shaped inputs are required; the operation enum indexes
`["PROD", "SUM", "MAX"]`; a SUM with a non-empty coefficient list reads both
`coeff[0]` and `coeff[1]`. -/
def eltwise (exp_tab : List (String × Expr)) (shape_of : Expr → List Nat)
    (op : LayerParameter) : Except PyErr Expr := do
  let _ ← pyAssert (op.bottom.length = 2) "input tensors length should be 2"
  let i0 ← pyIndex op.bottom 0
  let i1 ← pyIndex op.bottom 1
  let lhs ← get_expr exp_tab i0
  let rhs ← get_expr exp_tab i1
  let _ ← pyAssert (shape_of lhs = shape_of rhs) "input tensors shape should be equal"
  let ename ← pyIndex ["PROD", "SUM", "MAX"] op.eltwise_param.operation
  let coeff := op.eltwise_param.coeff
  if ename = "PROD" then
    .ok (.call "multiply" [lhs, rhs] [])
  else if ename = "SUM" then
    if coeff ≠ [] then do
      let c0 ← pyIndex coeff 0
      let c1 ← pyIndex coeff 1
      .ok (.call "add"
        [.call "multiply" [lhs, .const [] [c0]] [],
         .call "multiply" [rhs, .const [] [c1]] []] [])
    else
      .ok (.call "add" [lhs, rhs] [])
  else if ename = "MAX" then
    .ok (.call "maximum" [lhs, rhs] [])
  else
    .error (.opNotImplemented [ename])

/-! ## `reshape` conversion: computation of the `newshape` attribute -/

/-- Normalize a Python slice bound to an index into a list of length
`len` (negative bounds count from the end, out-of-range bounds clamp). -/
def pySliceIdx (len : Nat) (i : Int) : Nat :=
  if i < 0 then ((len : Int) + i).toNat else min i.toNat len

/-- `l[:i]` -/
def pySliceTo {α : Type} (l : List α) (i : Int) : List α :=
  l.take (pySliceIdx l.length i)

/-- `l[i:]` -/
def pySliceFrom {α : Type} (l : List α) (i : Int) : List α :=
  l.drop (pySliceIdx l.length i)

/-- `l[a:b]` -/
def pySliceRange {α : Type} (l : List α) (a b : Int) : List α :=
  (l.take (pySliceIdx l.length b)).drop (pySliceIdx l.length a)

/-- The loop `for idx, dim in enumerate(dims): if dim == 0: dims[idx] =
center_shape[idx]` (an out-of-range index raises). -/
def substZeroDims (dims : List Int) (center : List Nat) : Except PyErr (List Int) :=
  dims.enum.mapM (fun p =>
    if p.2 = 0 then (pyIndex center p.1).map Int.ofNat else .ok p.2)

/-- `np.reshape` shape resolution for an array of `total` elements: at most
one `-1` entry (inferred so the element counts match), any other negative
entry or a count mismatch raises `ValueError`. -/
def npResolveNewshape (total : Nat) (dims : List Int) : Except PyErr (List Nat) :=
  if dims.any (fun d => d < -1) then .error .valueError
  else if 2 ≤ (dims.filter (fun d => d = -1)).length then .error .valueError
  else if (dims.filter (fun d => d = -1)).length = 1 then
    let p := (dims.filter (fun d => d ≠ -1)).foldl (fun a d => a * d.toNat) 1
    if p ≠ 0 ∧ p ∣ total then
      .ok (dims.map (fun d => if d = -1 then total / p else d.toNat))
    else .error .valueError
  else
    let p := dims.foldl (fun a d => a * d.toNat) 1
    if p = total then .ok (dims.map Int.toNat) else .error .valueError

/-- The `newshape` computed by the `reshape` conversion routine for an input
of static shape `input_shape`: split the input shape at `axis`/`num_axes`,
substitute zero target dims by the corresponding centre dims, resolve the
centre through `np.reshape`, and concatenate. -/
def reshape_newshape (input_shape : List Nat) (rp : ReshapeParam) :
    Except PyErr (List Nat) := do
  let len : Int := input_shape.length
  let start_axis : Int := if rp.axis < 0 then len + rp.axis + 1 else rp.axis
  let end_axis : Int := if rp.num_axes ≠ -1 then start_axis + rp.num_axes else len
  let left_shape := pySliceTo input_shape start_axis
  let cr :=
    if end_axis = len then (pySliceFrom input_shape start_axis, ([] : List Nat))
    else (pySliceRange input_shape start_axis end_axis, pySliceFrom input_shape end_axis)
  let dims ← substZeroDims rp.dim cr.1
  let center ← npResolveNewshape cr.1.prod dims
  pure (left_shape ++ center ++ cr.2)

/-! ## Weight/bias blob extraction of `conv` and `innerproduct` -/

/-- Truthiness of a protobuf blob message: protobuf messages define neither
a boolean conversion nor a length, so `if weight:` is always true. -/
def blob_truthy (_b : BlobProto) : Bool := true

/-- The weight/bias extraction of `conv` (lines 639-651): `blobs[0]` and,
when more than one blob is present, `blobs[1]`; the
`raise Exception("No weight value of layer ...")` guard fires only if the
weight blob is falsy. -/
def conv_weight_bias (op_name : String) (blobs : List BlobProto) :
    Except PyErr (BlobProto × Option BlobProto) := do
  let wb ←
    if blobs.length > 1 then do
      let w ← pyIndex blobs 0
      let b ← pyIndex blobs 1
      pure (w, some b)
    else do
      let w ← pyIndex blobs 0
      pure (w, (none : Option BlobProto))
  if blob_truthy wb.1 then pure wb
  else .error (.exception ("No weight value of layer " ++ op_name ++ " in caffemodel"))

/-- The weight/bias extraction of `innerproduct` (lines 758-771): the bias
blob is read whenever `bias_term` is set; same dead missing-weight guard as
`conv`. -/
def innerproduct_weight_bias (op_name : String) (bias_term : Bool)
    (blobs : List BlobProto) : Except PyErr (BlobProto × Option BlobProto) := do
  let wb ←
    if bias_term then do
      let w ← pyIndex blobs 0
      let b ← pyIndex blobs 1
      pure (w, some b)
    else do
      let w ← pyIndex blobs 0
      pure (w, (none : Option BlobProto))
  if blob_truthy wb.1 then pure wb
  else .error (.exception ("No weight value of layer " ++ op_name ++ " in caffemodel"))

/-! ## `python_layer` (proposal-style layers): the `param_str` handling

The source evaluates the embedded parameter string with Python `eval`
(wrapping it in braces first when it contains none).  `pyEvalDict` models
`eval` on the sub-language the conversion can meaningfully consume: Python
dict literals whose keys are string literals and whose values are integer,
float, boolean or list literals.  On any other string — in particular one
whose keys are bare identifiers, which make `eval` raise `NameError` — the
evaluation is modelled as failing with `evalError`. -/

/-- Values of the evaluated parameter dict. -/
inductive PyVal where
  | int (n : Int)
  | float (q : ℚ)
  | str (s : String)
  | bool (v : Bool)
  | list (l : List PyVal)
deriving Repr, Inhabited

/-- Tokens of the Python literal fragment. -/
inductive PyTok where
  | lbrace | rbrace | lbrack | rbrack | colon | comma
  | str (s : String)
  | int (n : Int)
  | float (q : ℚ)
  | kwTrue | kwFalse
deriving DecidableEq, Repr, Inhabited

/-- Numeric value of a digit string. -/
def digitsVal (ds : List Char) : Nat :=
  ds.foldl (fun a c => a * 10 + (c.toNat - 48)) 0

/-- Characters of a Python identifier. -/
def isIdentChar (c : Char) : Bool := c.isAlphanum || c = '_'

/-- Tokenizer for the Python literal fragment.  Bare identifiers other than
`True`/`False` are rejected (under `eval` they are name lookups, raising
`NameError`). -/
def tokenize : Nat → List Char → Option (List PyTok)
  | 0, _ => none
  | _, [] => some []
  | fuel + 1, c :: cs =>
    if c = ' ' || c = '\t' || c = '\n' || c = '\r' then tokenize fuel cs
    else if c = '\x7b' then (tokenize fuel cs).map (PyTok.lbrace :: ·)
    else if c = '\x7d' then (tokenize fuel cs).map (PyTok.rbrace :: ·)
    else if c = '[' then (tokenize fuel cs).map (PyTok.lbrack :: ·)
    else if c = ']' then (tokenize fuel cs).map (PyTok.rbrack :: ·)
    else if c = ':' then (tokenize fuel cs).map (PyTok.colon :: ·)
    else if c = ',' then (tokenize fuel cs).map (PyTok.comma :: ·)
    else if c = '"' || c = Char.ofNat 39 then
      let sp := cs.span (fun d => decide (d ≠ c))
      match sp.2 with
      | [] => none
      | _ :: rest2 =>
        if sp.1.any (fun d => d = '\\') then none
        else (tokenize fuel rest2).map (PyTok.str (String.mk sp.1) :: ·)
    else if c.isDigit || c = '-' then
      let neg := c = '-'
      let body := if neg then cs else c :: cs
      let ip := body.span Char.isDigit
      if ip.1.isEmpty then none
      else
        match ip.2 with
        | '.' :: rest2 =>
          let fp := rest2.span Char.isDigit
          let num : ℚ := (digitsVal ip.1 : ℚ) + (digitsVal fp.1 : ℚ) / ((10 : ℚ) ^ fp.1.length)
          (tokenize fuel fp.2).map (PyTok.float (if neg then -num else num) :: ·)
        | rest2 =>
          let n : Int := digitsVal ip.1
          (tokenize fuel rest2).map (PyTok.int (if neg then -n else n) :: ·)
    else if isIdentChar c then
      let sp := (c :: cs).span isIdentChar
      if String.mk sp.1 = "True" then (tokenize fuel sp.2).map (PyTok.kwTrue :: ·)
      else if String.mk sp.1 = "False" then (tokenize fuel sp.2).map (PyTok.kwFalse :: ·)
      else none
    else none

mutual

/-- Parse one literal value from a token stream. -/
def parsePyVal : Nat → List PyTok → Option (PyVal × List PyTok)
  | 0, _ => none
  | _ + 1, [] => none
  | fuel + 1, t :: ts =>
    match t with
    | .int n => some (.int n, ts)
    | .float q => some (.float q, ts)
    | .str s => some (.str s, ts)
    | .kwTrue => some (.bool true, ts)
    | .kwFalse => some (.bool false, ts)
    | .lbrack => parsePyList fuel ts []
    | _ => none

/-- Parse the items of a list literal (trailing commas allowed, as in
Python). -/
def parsePyList : Nat → List PyTok → List PyVal → Option (PyVal × List PyTok)
  | 0, _, _ => none
  | _ + 1, .rbrack :: ts, acc => some (.list acc.reverse, ts)
  | fuel + 1, ts, acc =>
    match parsePyVal fuel ts with
    | some (v, .comma :: ts2) => parsePyList fuel ts2 (v :: acc)
    | some (v, .rbrack :: ts2) => some (.list (acc.reverse ++ [v]), ts2)
    | _ => none

end

/-- Python dict insertion: a repeated key overwrites the old value in
place, a fresh key is appended. -/
def pyDictInsert (d : List (String × PyVal)) (k : String) (v : PyVal) :
    List (String × PyVal) :=
  if (List.lookup k d).isSome then d.map (fun p => if p.1 = k then (k, v) else p)
  else d ++ [(k, v)]

/-- Parse the items of a dict literal with string-literal keys. -/
def parsePyDictItems : Nat → List PyTok → List (String × PyVal) →
    Option (List (String × PyVal) × List PyTok)
  | 0, _, _ => none
  | _ + 1, .rbrace :: ts, acc => some (acc, ts)
  | fuel + 1, .str k :: .colon :: ts, acc =>
    match parsePyVal fuel ts with
    | some (v, .comma :: ts2) => parsePyDictItems fuel ts2 (pyDictInsert acc k v)
    | some (v, .rbrace :: ts2) => some (pyDictInsert acc k v, ts2)
    | _ => none
  | _, _, _ => none

/-- `eval(s)` on the dict-literal fragment described above. -/
def pyEvalDict (s : String) : Except PyErr (List (String × PyVal)) :=
  match tokenize (s.length + 1) s.toList with
  | none => .error .evalError
  | some toks =>
    match toks with
    | .lbrace :: ts =>
      match parsePyDictItems (2 * ts.length + 2) ts [] with
      | some (d, []) => .ok d
      | _ => .error .evalError
    | _ => .error .evalError

/-- The `param_dict` computation of `python_layer` (lines 165-171): the
string is passed to `eval` directly when it contains a brace (`"{" in
param_str`), otherwise it is wrapped in braces first and then evaluated. -/
def python_param_dict (param_str : String) : Except PyErr (List (String × PyVal)) :=
  if '\x7b' ∈ param_str.toList then pyEvalDict param_str
  else pyEvalDict ("\x7b" ++ param_str ++ "\x7d")

/-- The `proposal_params_tvm` dict built for a `ProposalLayer`. -/
structure ProposalParams where
  scales : PyVal
  ratios : PyVal
  feature_stride : PyVal
  rpn_pre_nms_top_n : PyVal
  rpn_post_nms_top_n : PyVal
  threshold : PyVal
  rpn_min_size : PyVal
  iou_loss : PyVal
deriving Repr, Inhabited

/-- Lines 179-202: each target attribute takes the dict value when its key
is present and the documented default otherwise. -/
def proposal_params_tvm (d : List (String × PyVal)) : ProposalParams where
  scales := (List.lookup "scales" d).getD (.list [.float 4, .float 8, .float 16, .float 32])
  ratios := (List.lookup "ratios" d).getD (.list [.float (1/2), .float 1, .float 2])
  feature_stride := (List.lookup "feat_stride" d).getD (.int 16)
  rpn_pre_nms_top_n := (List.lookup "rpn_pre_nms_top_n" d).getD (.int 6000)
  rpn_post_nms_top_n := (List.lookup "rpn_post_nms_top_n" d).getD (.int 300)
  threshold := (List.lookup "rpn_nms_thresh" d).getD (.float (7/10))
  rpn_min_size := (List.lookup "rpn_min_size" d).getD (.int 16)
  iou_loss := (List.lookup "iou_loss" d).getD (.bool false)

/-- The parameter handling of `python_layer` for a proposal-style layer:
evaluate the embedded string, then resolve the documented attributes. -/
def python_layer_proposal_params (param_str : String) : Except PyErr ProposalParams :=
  (python_param_dict param_str).map proposal_params_tvm

/-! Spec-side grammar parser for comparison with the `eval`-based code. -/

/-- Split a character list at top-level commas (commas inside brackets
belong to a list value). -/
def splitTopComma : List Char → Nat → List Char → List (List Char)
  | [], _, cur => [cur.reverse]
  | c :: cs, depth, cur =>
    if c = ',' && depth = 0 then cur.reverse :: splitTopComma cs 0 []
    else if c = '[' then splitTopComma cs (depth + 1) (c :: cur)
    else if c = ']' then splitTopComma cs (depth - 1) (c :: cur)
    else splitTopComma cs depth (c :: cur)

/-- Split a character list at the first colon. -/
def splitFirstColon : List Char → List Char → Option (List Char × List Char)
  | [], _ => none
  | c :: cs, acc => if c = ':' then some (acc.reverse, cs) else splitFirstColon cs (c :: acc)

/-- Drop leading and trailing whitespace from a character list. -/
def trimChars (l : List Char) : List Char :=
  ((l.dropWhile Char.isWhitespace).reverse.dropWhile Char.isWhitespace).reverse

/-- Strip one pair of surrounding quotes from a trimmed key, if present. -/
def stripQuotes (l : List Char) : List Char :=
  let t := trimChars l
  let stripped := t.tail.dropLast
  match t.head?, t.getLast? with
  | some a, some b =>
    if 2 ≤ t.length && a = b && (a = '"' || a = Char.ofNat 39) then stripped else t
  | _, _ => t

/-- Parse a single literal value (number, boolean or bracketed list). -/
def parseLiteral (l : List Char) : Option PyVal :=
  match tokenize (l.length + 1) l with
  | some toks =>
    match parsePyVal (2 * toks.length + 2) toks with
    | some (v, []) => some v
    | _ => none
  | none => none

/-- Modelled from the spec: the "defined small grammar" for embedded
parameter strings — comma-separated `key:value` pairs, optionally wrapped in
braces; keys are taken as written (surrounding quotes stripped), values are
literal numbers, booleans or lists; the string is never evaluated as code. -/
def spec_param_grammar (s : String) : Option (List (String × PyVal)) :=
  let t := trimChars s.toList
  let body :=
    if t.head? = some '\x7b' && t.getLast? = some '\x7d' then t.tail.dropLast else t
  if trimChars body = [] then some []
  else
    (splitTopComma body 0 []).foldl
      (fun acc piece =>
        match acc with
        | none => none
        | some d =>
          match splitFirstColon piece [] with
          | none => none
          | some kv =>
            let key := String.mk (stripQuotes kv.1)
            match parseLiteral kv.2 with
            | none => none
            | some v => if key = "" then none else some (pyDictInsert d key v))
      (some [])

/-! ## Shared helper lemmas -/

/-- Association-list lookup skips an entry with a different key. -/
theorem lookup_cons_ne {β : Type} (k a : String) (v : β) (d : List (String × β))
    (h : k ≠ a) : List.lookup a ((k, v) :: d) = List.lookup a d := by
  have hb : (a == k) = false := beq_eq_false_iff_ne.mpr (fun h2 => h h2.symm)
  simp [List.lookup, hb]

/-- Per-channel values replicated over an `h × w` spatial extent and then
over a batch of `n` — the broadcast performed by the standalone BatchNorm
conversion. -/
def broadcastSpatial (v : List ℚ) (n h w : Nat) : List ℚ :=
  ((List.range n).map (fun _ => (v.map (fun x => List.replicate (h * w) x)).flatten)).flatten

theorem npRepeatReshapeExpand_ok (a : List ℚ) (n c h w : Nat) (hc : a.length = c) :
    npRepeatReshapeExpand a n c h w = .ok (broadcastSpatial a n h w) := by
  simp [npRepeatReshapeExpand, broadcastSpatial, hc]

/-! ## C5: Reshape with axis=1, num_axes=-1, dims=[0,-1] on shape [2,3,4] -/

/-- C5 counterexample: the claimed output shape `[2, 12]` is not what the
`reshape` conversion computes for axis=1, num_axes=-1, target dims
`[0, -1]` on an input of static shape `[2, 3, 4]`. -/
theorem reshape_0_neg1_not_merged :
    reshape_newshape [2, 3, 4] ⟨[0, -1], 1, -1⟩ ≠ .ok [2, 12] := by
  intro h
  rw [show reshape_newshape [2, 3, 4] ⟨[0, -1], 1, -1⟩ = .ok [2, 3, 4] from rfl] at h
  simp at h

/-- C5 (amended): converting a Reshape layer with axis=1, num_axes=-1 and
target dims `[0, -1]` on an input of static shape `[2, 3, 4]` produces an
output of shape `[2, 3, 4]`: the leading dim is copied, the `0` copies the
dim at its position (3) and the `-1` resolves to the remaining extent 4. -/
theorem reshape_0_neg1_output_shape :
    reshape_newshape [2, 3, 4] ⟨[0, -1], 1, -1⟩ = .ok [2, 3, 4] := rfl

/-! ## C7: errors on missing learned parameter blobs -/

/-- C7 (code bug): a Convolution (or InnerProduct) layer whose caffemodel
entry has too few blobs fails with a bare `IndexError` from `blobs[0]` /
`blobs[1]` (or a `KeyError` when the layer is absent from the caffemodel
altogether), not with the layer-naming missing-parameter exception: that
`raise` is unreachable because a protobuf blob message is always truthy. -/
theorem conv_missing_blobs_generic_error :
    conv_weight_bias "conv1" [] = .error .indexError
    ∧ innerproduct_weight_bias "fc1" true [{ data := [1], shape := [1] }] = .error .indexError
    ∧ dictGet ([] : List (String × LayerParameter)) "conv1" = .error (.keyError "conv1")
    ∧ PyErr.indexError ≠ .exception ("No weight value of layer conv1 in caffemodel") := by
  refine ⟨rfl, rfl, rfl, ?_⟩
  intro h
  cases h

/-! ## C6: kernel/padding/stride resolution precedence -/

/-- C6: for Convolution and Deconvolution layers (both call
`_parse_conv_params`), kernel size, padding and stride are each resolved by
precedence: the separate `_h`/`_w` pair when either member is positive;
otherwise the first two elements of the generic list, the second defaulting
to the first; otherwise the fixed default (0 for padding, 1 for stride). -/
theorem conv_params_precedence (cp : ConvolutionParam) :
    ((0 < cp.kernel_h ∨ 0 < cp.kernel_w) →
        (_parse_conv_params cp).kernel_size = (cp.kernel_h, cp.kernel_w))
    ∧ (cp.kernel_h = 0 → cp.kernel_w = 0 → ∀ a b r, cp.kernel_size = a :: b :: r →
        (_parse_conv_params cp).kernel_size = (a, b))
    ∧ (cp.kernel_h = 0 → cp.kernel_w = 0 → ∀ a, cp.kernel_size = [a] →
        (_parse_conv_params cp).kernel_size = (a, a))
    ∧ ((0 < cp.pad_h ∨ 0 < cp.pad_w) →
        (_parse_conv_params cp).padding = (cp.pad_h, cp.pad_w))
    ∧ (cp.pad_h = 0 → cp.pad_w = 0 → ∀ a b r, cp.pad = a :: b :: r →
        (_parse_conv_params cp).padding = (a, b))
    ∧ (cp.pad_h = 0 → cp.pad_w = 0 → ∀ a, cp.pad = [a] →
        (_parse_conv_params cp).padding = (a, a))
    ∧ (cp.pad_h = 0 → cp.pad_w = 0 → cp.pad = [] →
        (_parse_conv_params cp).padding = (0, 0))
    ∧ ((0 < cp.stride_h ∨ 0 < cp.stride_w) →
        (_parse_conv_params cp).strides = (cp.stride_h, cp.stride_w))
    ∧ (cp.stride_h = 0 → cp.stride_w = 0 → ∀ a b r, cp.stride = a :: b :: r →
        (_parse_conv_params cp).strides = (a, b))
    ∧ (cp.stride_h = 0 → cp.stride_w = 0 → ∀ a, cp.stride = [a] →
        (_parse_conv_params cp).strides = (a, a))
    ∧ (cp.stride_h = 0 → cp.stride_w = 0 → cp.stride = [] →
        (_parse_conv_params cp).strides = (1, 1)) := by
  refine ⟨?_, ?_, ?_, ?_, ?_, ?_, ?_, ?_, ?_, ?_, ?_⟩
  · intro h
    rcases h with h | h <;> simp [_parse_conv_params, h]
  · intro h0 h1 a b r hk
    simp [_parse_conv_params, nonzone, h0, h1, hk]
  · intro h0 h1 a hk
    simp [_parse_conv_params, nonzone, h0, h1, hk]
  · intro h
    rcases h with h | h <;> simp [_parse_conv_params, h]
  · intro h0 h1 a b r hk
    simp [_parse_conv_params, nonzone, h0, h1, hk]
  · intro h0 h1 a hk
    simp [_parse_conv_params, nonzone, h0, h1, hk]
  · intro h0 h1 hk
    simp [_parse_conv_params, nonzone, h0, h1, hk]
  · intro h
    rcases h with h | h <;> simp [_parse_conv_params, h]
  · intro h0 h1 a b r hk
    simp [_parse_conv_params, nonzone, h0, h1, hk]
  · intro h0 h1 a hk
    simp [_parse_conv_params, nonzone, h0, h1, hk]
  · intro h0 h1 hk
    simp [_parse_conv_params, nonzone, h0, h1, hk]

/-- C6 witness: a concrete parameter record exercising the explicit kernel
pair, the empty padding default and the one-element stride fallback. -/
theorem conv_params_precedence_witness :
    (_parse_conv_params { kernel_h := 2, kernel_w := 3, stride := [4] }).kernel_size = (2, 3)
    ∧ (_parse_conv_params { kernel_h := 2, kernel_w := 3, stride := [4] }).padding = (0, 0)
    ∧ (_parse_conv_params { kernel_h := 2, kernel_w := 3, stride := [4] }).strides = (4, 4) := by
  refine ⟨?_, ?_, ?_⟩
  · exact (conv_params_precedence _).1 (Or.inl (by decide))
  · exact (conv_params_precedence _).2.2.2.2.2.2.1 rfl rfl rfl
  · exact (conv_params_precedence _).2.2.2.2.2.2.2.2.2.1 rfl rfl 4 rfl

/-! ## C10: Eltwise SUM coefficient handling -/

/-- C10: an Eltwise SUM with a non-empty coefficient list reads both
`coeff[0]` and `coeff[1]`: a single-coefficient list makes the conversion
fail with an index-out-of-range error, while two coefficients multiply each
operand by its own coefficient before the addition. -/
theorem eltwise_sum_coeff_indexing
    (exp_tab : List (String × Expr)) (shape_of : Expr → List Nat)
    (op : LayerParameter) (i1 i2 : String) (lhs rhs : Expr)
    (hb : op.bottom = [i1, i2])
    (h1 : List.lookup i1 exp_tab = some lhs)
    (h2 : List.lookup i2 exp_tab = some rhs)
    (hs : shape_of lhs = shape_of rhs)
    (hop : op.eltwise_param.operation = 1) :
    (∀ c, op.eltwise_param.coeff = [c] →
        eltwise exp_tab shape_of op = .error .indexError)
    ∧ (∀ c1 c2, op.eltwise_param.coeff = [c1, c2] →
        eltwise exp_tab shape_of op = .ok (.call "add"
          [.call "multiply" [lhs, .const [] [c1]] [],
           .call "multiply" [rhs, .const [] [c2]] []] [])) := by
  constructor
  · intro c hc
    simp [eltwise, pyAssert, get_expr, dictGet, pyIndex, Bind.bind, Except.bind,
      Pure.pure, Except.pure, hb, h1, h2, hs, hop, hc]
  · intro c1 c2 hc
    simp [eltwise, pyAssert, get_expr, dictGet, pyIndex, Bind.bind, Except.bind,
      Pure.pure, Except.pure, hb, h1, h2, hs, hop, hc]

/-- C10 witness: a concrete Eltwise SUM layer with a one-element and with a
two-element coefficient list. -/
theorem eltwise_sum_coeff_indexing_witness :
    eltwise [("a", .var "a"), ("b", .var "b")] (fun _ => [1])
      { name := "e1", type := "Eltwise", bottom := ["a", "b"],
        eltwise_param := { operation := 1, coeff := [5] } } = .error .indexError
    ∧ eltwise [("a", .var "a"), ("b", .var "b")] (fun _ => [1])
      { name := "e1", type := "Eltwise", bottom := ["a", "b"],
        eltwise_param := { operation := 1, coeff := [5, 7] } } = .ok (.call "add"
          [.call "multiply" [.var "a", .const [] [5]] [],
           .call "multiply" [.var "b", .const [] [7]] []] []) := by
  constructor
  · exact (eltwise_sum_coeff_indexing [("a", .var "a"), ("b", .var "b")] (fun _ => [1])
      { name := "e1", type := "Eltwise", bottom := ["a", "b"],
        eltwise_param := { operation := 1, coeff := [5] } }
      "a" "b" (.var "a") (.var "b") rfl rfl rfl rfl rfl).1 5 rfl
  · exact (eltwise_sum_coeff_indexing [("a", .var "a"), ("b", .var "b")] (fun _ => [1])
      { name := "e1", type := "Eltwise", bottom := ["a", "b"],
        eltwise_param := { operation := 1, coeff := [5, 7] } }
      "a" "b" (.var "a") (.var "b") rfl rfl rfl rfl rfl).2 5 7 rfl

/-! ## C9: standalone BatchNorm with exactly two blobs -/

/-- C9: a BatchNorm layer that was not fused and whose parameter list has
exactly two blobs is not emitted as a `batch_norm` operation: the conversion
produces an elementwise `multiply` by the first blob followed by an
elementwise `add` of the second, each value broadcast over the batch and
spatial dimensions. -/
theorem batch_norm_two_blobs_multiply_add
    (op : LayerParameter) (in_expr : Expr) (n c h w : Nat)
    (new_bn : List (String × BnFused))
    (init_layer_dict : List (String × LayerParameter))
    (il : LayerParameter) (b0 b1 : BlobProto)
    (hnb : List.lookup op.name new_bn = none)
    (hil : List.lookup op.name init_layer_dict = some il)
    (hb : il.blobs = [b0, b1])
    (hc0 : b0.data.length = c) (hc1 : b1.data.length = c) :
    batch_norm op in_expr [n, c, h, w] new_bn init_layer_dict =
      .ok (.call "add"
        [.call "multiply" [in_expr, .const [n, c, h, w] (broadcastSpatial b0.data n h w)] [],
         .const [n, c, h, w] (broadcastSpatial b1.data n h w)] []) := by
  simp [batch_norm, dictGet, pyIndex, Bind.bind, Except.bind, Pure.pure, Except.pure,
    hnb, hil, hb, npRepeatReshapeExpand_ok _ _ _ _ _ hc0,
    npRepeatReshapeExpand_ok _ _ _ _ _ hc1]

/-- C9 witness: a concrete two-blob BatchNorm layer on a `[1, 2, 1, 2]`
input. -/
theorem batch_norm_two_blobs_multiply_add_witness :
    batch_norm { name := "bn2", type := "BatchNorm", bottom := ["x"], top := ["y"] }
      (.var "x") [1, 2, 1, 2] []
      [("bn2", { name := "bn2",
                 blobs := [{ data := [2, 3], shape := [2] },
                           { data := [4, 5], shape := [2] }] })] =
      .ok (.call "add"
        [.call "multiply" [.var "x", .const [1, 2, 1, 2] [2, 2, 3, 3]] [],
         .const [1, 2, 1, 2] [4, 4, 5, 5]] []) := by
  have h := batch_norm_two_blobs_multiply_add
    { name := "bn2", type := "BatchNorm", bottom := ["x"], top := ["y"] }
    (.var "x") 1 2 1 2 []
    [("bn2", { name := "bn2",
               blobs := [{ data := [2, 3], shape := [2] },
                         { data := [4, 5], shape := [2] }] })]
    { name := "bn2",
      blobs := [{ data := [2, 3], shape := [2] }, { data := [4, 5], shape := [2] }] }
    { data := [2, 3], shape := [2] } { data := [4, 5], shape := [2] }
    rfl rfl rfl rfl rfl
  rw [h]
  rfl

/-! ## C4: the third "scale count" blob of BatchNorm -/

/-- C4: when a BatchNorm layer's blob list has a third scale-count blob with
a nonzero value, its reciprocal is multiplied into both the stored mean and
the stored variance before use — both in the fusion arithmetic (`fuse_op`)
and in the standalone three-blob `batch_norm` conversion. -/
theorem batchnorm_scale_count_reciprocal
    (init_layer_dict : List (String × LayerParameter))
    (bn scale : LayerParameter) (bnInit : LayerParameter)
    (b0 b1 b2 : BlobProto) (s : ℚ)
    (hinit : List.lookup bn.name init_layer_dict = some bnInit)
    (hblobs : bnInit.blobs = [b0, b1, b2])
    (hs : b2.data = [s]) (hnz : s ≠ 0) :
    (∀ r, fuse_op init_layer_dict bn scale = .ok r →
        r.mean = b0.data.map (fun x => x * (1 / s))
        ∧ r.var = b1.data.map (fun x => x * (1 / s)))
    ∧ (∀ in_expr n c h w new_bn, List.lookup bn.name new_bn = none →
        batch_norm bn in_expr [n, c, h, w] new_bn init_layer_dict =
          .ok (.tupleGetItem (.call "batch_norm"
            [in_expr,
             .const [b0.data.length] (List.replicate b0.data.length (1 : ℚ)),
             .const [b0.data.length] (List.replicate b0.data.length (0 : ℚ)),
             .const [b0.data.length] (b0.data.map (fun x => x * (1 / s))),
             .const [b1.data.length] (b1.data.map (fun x => x * (1 / s)))]
            [("epsilon", .f bn.batch_norm_param.eps), ("scale", .b false)]) 0)) := by
  constructor
  · intro r hr
    simp [fuse_op, dictGet, pyIndex, npTruthy, npMul, Bind.bind, Except.bind,
      Pure.pure, Except.pure, Functor.map, Except.map,
      hinit, hblobs, hs, hnz] at hr
    rcases hsc : List.lookup scale.name init_layer_dict with _ | scInit
    · simp [hsc] at hr
    · simp [hsc] at hr
      rcases hg : scInit.blobs[0]? with _ | g
      · simp [hg] at hr
      · simp [hg] at hr
        cases hbt : scale.scale_param.bias_term
        · simp [hbt] at hr
          rw [← hr]
          constructor <;> simp [one_div]
        · simp [hbt] at hr
          rcases hbb : scInit.blobs[1]? with _ | bb
          · simp [hbb] at hr
          · simp [hbb] at hr
            rw [← hr]
            constructor <;> simp [one_div]
  · intro in_expr n c h w new_bn hnb
    simp [batch_norm, dictGet, pyIndex, npTruthy, npMul, Bind.bind, Except.bind,
      Pure.pure, Except.pure, hinit, hblobs, hs, hnz, hnb, one_div]

/-- C4 example: a BatchNorm with mean blob `[3]`, variance blob `[5]` and
scale-count blob `[2]`, next to a Scale layer with gamma blob `[7]`. -/
def bn4 : LayerParameter := { name := "bn4", type := "BatchNorm" }

def sc4 : LayerParameter := { name := "sc4", type := "Scale" }

def init4 : List (String × LayerParameter) :=
  [("bn4", { name := "bn4",
             blobs := [{ data := [3], shape := [1] }, { data := [5], shape := [1] },
                       { data := [2], shape := [1] }] }),
   ("sc4", { name := "sc4", blobs := [{ data := [7], shape := [1] }] })]

/-- The merged parameters `fuse_op` produces for `bn4`/`sc4`. -/
def bnFused4 : BnFused := ⟨[3 / 2], [5 / 2], 1 / 100000, [7], [0]⟩

/-- C4 witness: with scale count 2, both the fusion arithmetic and the
standalone conversion multiply mean and variance by 1/2. -/
theorem batchnorm_scale_count_reciprocal_witness :
    fuse_op init4 bn4 sc4 = .ok bnFused4
    ∧ bnFused4.mean = [(3 : ℚ)].map (fun x => x * (1 / 2))
    ∧ bnFused4.var = [(5 : ℚ)].map (fun x => x * (1 / 2))
    ∧ batch_norm bn4 (.var "x") [1, 1, 1, 1] [] init4 =
        .ok (.tupleGetItem (.call "batch_norm"
          [.var "x", .const [1] (List.replicate 1 (1 : ℚ)),
           .const [1] (List.replicate 1 (0 : ℚ)),
           .const [1] ([(3 : ℚ)].map (fun x => x * (1 / 2))),
           .const [1] ([(5 : ℚ)].map (fun x => x * (1 / 2)))]
          [("epsilon", .f (1 / 100000)), ("scale", .b false)]) 0) := by
  have hev : fuse_op init4 bn4 sc4 = .ok bnFused4 := by
    simp [fuse_op, dictGet, pyIndex, npTruthy, npMul, List.lookup,
      Bind.bind, Except.bind, Pure.pure, Except.pure, Functor.map, Except.map,
      bn4, sc4, init4, bnFused4]
    all_goals norm_num
  have h := batchnorm_scale_count_reciprocal init4 bn4 sc4
    { name := "bn4",
      blobs := [{ data := [3], shape := [1] }, { data := [5], shape := [1] },
                { data := [2], shape := [1] }] }
    { data := [3], shape := [1] } { data := [5], shape := [1] }
    { data := [2], shape := [1] } 2 rfl rfl rfl (by norm_num)
  refine ⟨hev, ?_, ?_, ?_⟩
  · exact (h.1 bnFused4 hev).1
  · exact (h.1 bnFused4 hev).2
  · exact h.2 (.var "x") 1 1 1 1 [] rfl

/-! ## C2: embedded parameter strings of proposal-style Python layers -/

/-- C2 counterexample: on the concrete parameter string `"feat_stride: 8"`
the claimed small grammar produces the mapping `feat_stride ↦ 8`, but the
code hands the brace-wrapped string to Python `eval`, which fails (a bare
identifier key is a name lookup, raising `NameError`): the string is
evaluated as code, not parsed by the claimed grammar. -/
theorem python_layer_evaluates_not_parses :
    python_param_dict "feat_stride: 8" = .error .evalError
    ∧ spec_param_grammar "feat_stride: 8" = some [("feat_stride", .int 8)] :=
  ⟨rfl, rfl⟩

/-- C2 (amended): the parameter string is evaluated as a Python expression
(brace-wrapped first when it contains no brace) rather than parsed by a
dedicated grammar; given the resulting mapping, unrecognized keys are
ignored and each missing key takes its documented default: scales
`[4.0, 8.0, 16.0, 32.0]`, ratios `[0.5, 1.0, 2.0]`, feature stride 16,
pre-NMS top-n 6000, post-NMS top-n 300, NMS threshold 0.7, min size 16. -/
theorem python_layer_param_defaults :
    (∀ (d : List (String × PyVal)) (k : String) (v : PyVal),
        k ∉ ["scales", "ratios", "feat_stride", "rpn_pre_nms_top_n",
             "rpn_post_nms_top_n", "rpn_nms_thresh", "rpn_min_size", "iou_loss"] →
        proposal_params_tvm ((k, v) :: d) = proposal_params_tvm d)
    ∧ (∀ d, List.lookup "scales" d = none →
        (proposal_params_tvm d).scales = .list [.float 4, .float 8, .float 16, .float 32])
    ∧ (∀ d, List.lookup "ratios" d = none →
        (proposal_params_tvm d).ratios = .list [.float (1/2), .float 1, .float 2])
    ∧ (∀ d, List.lookup "feat_stride" d = none →
        (proposal_params_tvm d).feature_stride = .int 16)
    ∧ (∀ d, List.lookup "rpn_pre_nms_top_n" d = none →
        (proposal_params_tvm d).rpn_pre_nms_top_n = .int 6000)
    ∧ (∀ d, List.lookup "rpn_post_nms_top_n" d = none →
        (proposal_params_tvm d).rpn_post_nms_top_n = .int 300)
    ∧ (∀ d, List.lookup "rpn_nms_thresh" d = none →
        (proposal_params_tvm d).threshold = .float (7/10))
    ∧ (∀ d, List.lookup "rpn_min_size" d = none →
        (proposal_params_tvm d).rpn_min_size = .int 16)
    ∧ (∀ s d, python_param_dict s = .ok d →
        python_layer_proposal_params s = .ok (proposal_params_tvm d)) := by
  refine ⟨?_, ?_, ?_, ?_, ?_, ?_, ?_, ?_, ?_⟩
  · intro d k v hk
    simp only [List.mem_cons, List.not_mem_nil, or_false, not_or] at hk
    obtain ⟨h1, h2, h3, h4, h5, h6, h7, h8⟩ := hk
    unfold proposal_params_tvm
    rw [lookup_cons_ne k "scales" v d h1, lookup_cons_ne k "ratios" v d h2,
        lookup_cons_ne k "feat_stride" v d h3,
        lookup_cons_ne k "rpn_pre_nms_top_n" v d h4,
        lookup_cons_ne k "rpn_post_nms_top_n" v d h5,
        lookup_cons_ne k "rpn_nms_thresh" v d h6,
        lookup_cons_ne k "rpn_min_size" v d h7,
        lookup_cons_ne k "iou_loss" v d h8]
  · intro d h
    simp [proposal_params_tvm, h]
  · intro d h
    simp [proposal_params_tvm, h]
  · intro d h
    simp [proposal_params_tvm, h]
  · intro d h
    simp [proposal_params_tvm, h]
  · intro d h
    simp [proposal_params_tvm, h]
  · intro d h
    simp [proposal_params_tvm, h]
  · intro d h
    simp [proposal_params_tvm, h]
  · intro s d h
    simp [python_layer_proposal_params, h, Except.map]

/-- C2 witness: a concrete unrecognized key is ignored, a missing
`feat_stride` takes the default 16, and a well-formed evaluated string
resolves through the defaults. -/
theorem python_layer_param_defaults_witness :
    proposal_params_tvm (("bogus", .int 2) :: [("scales", .int 1)]) =
      proposal_params_tvm [("scales", .int 1)]
    ∧ (proposal_params_tvm []).feature_stride = .int 16
    ∧ python_layer_proposal_params "\"feat_stride\": 8" =
        .ok (proposal_params_tvm [("feat_stride", .int 8)]) := by
  refine ⟨?_, ?_, ?_⟩
  · exact python_layer_param_defaults.1 [("scales", .int 1)] "bogus" (.int 2) (by decide)
  · exact python_layer_param_defaults.2.2.2.1 [] rfl
  · exact python_layer_param_defaults.2.2.2.2.2.2.2.2 "\"feat_stride\": 8"
      [("feat_stride", .int 8)] rfl

/-! ## C8: aggregated validation of unsupported operator kinds -/

/-- The graph normalizer never changes a layer's operator kind. -/
theorem rebuildGo_map_type (layers : List LayerParameter)
    (changed restore : List (String × String)) :
    (rebuildGo changed restore layers).1.map LayerParameter.type =
      layers.map LayerParameter.type := by
  induction layers generalizing changed restore with
  | nil => simp [rebuildGo]
  | cons pl rest ih =>
    by_cases h1 : pl.type = "Input"
    · simp [rebuildGo, h1, ih]
    · by_cases h2 : inPlaceShape pl = true
      · simp [rebuildGo, h1, h2, ih]
      · simp [rebuildGo, h1, h2, ih]

/-- Membership in the collected unsupported set, relative to an
accumulator. -/
theorem mem_unsupFold (ts : List String) (acc : List String) (t : String) :
    t ∈ ts.foldl unsupStep acc ↔
      t ∈ acc ∨ (t ∈ ts ∧ t ∉ convert_map_keys) := by
  induction ts generalizing acc with
  | nil => simp
  | cons a ts ih =>
    rw [List.foldl_cons, ih]
    by_cases h1 : a ∈ convert_map_keys
    · simp only [unsupStep, if_pos h1, List.mem_cons]
      constructor
      · rintro (h | ⟨h, hk⟩)
        · exact Or.inl h
        · exact Or.inr ⟨Or.inr h, hk⟩
      · rintro (h | ⟨(rfl | h), hk⟩)
        · exact Or.inl h
        · exact absurd h1 hk
        · exact Or.inr ⟨h, hk⟩
    · by_cases h2 : a ∈ acc
      · simp only [unsupStep, if_neg h1, if_pos h2, List.mem_cons]
        constructor
        · rintro (h | ⟨h, hk⟩)
          · exact Or.inl h
          · exact Or.inr ⟨Or.inr h, hk⟩
        · rintro (h | ⟨(rfl | h), hk⟩)
          · exact Or.inl h
          · exact Or.inl h2
          · exact Or.inr ⟨h, hk⟩
      · simp only [unsupStep, if_neg h1, if_neg h2, List.mem_append,
          List.mem_cons, List.not_mem_nil, or_false]
        constructor
        · rintro ((h | rfl) | ⟨h, hk⟩)
          · exact Or.inl h
          · exact Or.inr ⟨Or.inl rfl, h1⟩
          · exact Or.inr ⟨Or.inr h, hk⟩
        · rintro (h | ⟨(rfl | h), hk⟩)
          · exact Or.inl (Or.inl h)
          · exact Or.inl (Or.inr rfl)
          · exact Or.inr ⟨h, hk⟩

/-- The unsupported set depends only on the sequence of layer types. -/
theorem unsupportedOps_eq_types (layers : List LayerParameter) :
    unsupportedOps layers = (layers.map LayerParameter.type).foldl unsupStep [] := by
  rw [unsupportedOps, List.foldl_map]

/-- Rebuilding does not change the unsupported set. -/
theorem unsupportedOps_rebuild (predict_layer : List LayerParameter) :
    unsupportedOps ((_rebuild_layers predict_layer).1) = unsupportedOps predict_layer := by
  rw [unsupportedOps_eq_types, unsupportedOps_eq_types, _rebuild_layers,
      rebuildGo_map_type]

/-- C8: if any layer kind has no registered conversion routine, the
translation fails with a single aggregated error listing exactly the
unsupported kinds, raised by the validation step before the fusion pass and
per-layer conversion run; if every kind is registered, the validation
returns nothing and the pipeline result is exactly the fusion result. -/
theorem check_unsupported_aggregated_before_conversion
    (predict_layer : List LayerParameter)
    (init_layer_dict : List (String × LayerParameter)) :
    (∀ t, t ∈ unsupportedOps predict_layer ↔
        (t ∈ predict_layer.map LayerParameter.type ∧ t ∉ convert_map_keys))
    ∧ (unsupportedOps predict_layer ≠ [] →
        check_unsupported_ops ((_rebuild_layers predict_layer).1) =
          .error (.opNotImplemented (unsupportedOps predict_layer))
        ∧ from_caffe_front predict_layer init_layer_dict =
          .error (.opNotImplemented (unsupportedOps predict_layer)))
    ∧ (unsupportedOps predict_layer = [] →
        check_unsupported_ops ((_rebuild_layers predict_layer).1) = .ok ()
        ∧ from_caffe_front predict_layer init_layer_dict =
          (op_fuse ((_rebuild_layers predict_layer).1) init_layer_dict).map
            (fun f => (f, (_rebuild_layers predict_layer).2))) := by
  refine ⟨?_, ?_, ?_⟩
  · intro t
    rw [unsupportedOps_eq_types, mem_unsupFold]
    simp
  · intro h
    have hc : check_unsupported_ops ((_rebuild_layers predict_layer).1) =
        .error (.opNotImplemented (unsupportedOps predict_layer)) := by
      rw [check_unsupported_ops, unsupportedOps_rebuild]
      simp [List.isEmpty_iff, h]
    refine ⟨hc, ?_⟩
    simp [from_caffe_front, hc, Bind.bind, Except.bind]
  · intro h
    have hc : check_unsupported_ops ((_rebuild_layers predict_layer).1) = .ok () := by
      rw [check_unsupported_ops, unsupportedOps_rebuild]
      simp [List.isEmpty_iff, h]
    refine ⟨hc, ?_⟩
    simp only [from_caffe_front, hc, Bind.bind, Except.bind]
    cases op_fuse ((_rebuild_layers predict_layer).1) init_layer_dict <;>
      simp [Except.map, Pure.pure, Except.pure]

/-- C8 witness: one model with an unregistered kind aborts with the
aggregated error; one with only registered kinds validates silently. -/
theorem check_unsupported_aggregated_before_conversion_witness :
    from_caffe_front [{ name := "f1", type := "Foo", bottom := ["x"], top := ["y"] }] [] =
      .error (.opNotImplemented ["Foo"])
    ∧ check_unsupported_ops
        ((_rebuild_layers [{ name := "r1", type := "ReLU", bottom := ["x"], top := ["y"] }]).1) =
      .ok () := by
  constructor
  · exact ((check_unsupported_aggregated_before_conversion
      [{ name := "f1", type := "Foo", bottom := ["x"], top := ["y"] }] []).2.1
      (by decide)).2
  · exact ((check_unsupported_aggregated_before_conversion
      [{ name := "r1", type := "ReLU", bottom := ["x"], top := ["y"] }] []).2.2
      (by decide)).1

/-! ## C3: properties of the graph normalizer -/

/-- The normalizer preserves the number of layers. -/
theorem rebuildGo_length (layers : List LayerParameter)
    (changed restore : List (String × String)) :
    (rebuildGo changed restore layers).1.length = layers.length := by
  induction layers generalizing changed restore with
  | nil => simp [rebuildGo]
  | cons pl rest ih =>
    by_cases h1 : pl.type = "Input"
    · simp [rebuildGo, h1, ih]
    · by_cases h2 : inPlaceShape pl = true
      · simp [rebuildGo, h1, h2, ih]
      · simp [rebuildGo, h1, h2, ih]

/-- Pointwise characterization of the normalizer: the i-th output layer is
the i-th input layer transformed with the rename dictionary accumulated
over the preceding layers. -/
theorem rebuildGo_getElem? (layers : List LayerParameter)
    (changed restore : List (String × String)) (i : Nat) :
    ((rebuildGo changed restore layers).1)[i]? =
      (layers[i]?).map (fun pl => rebuildLayerStep (changedAfter changed (layers.take i)) pl) := by
  induction layers generalizing changed restore i with
  | nil => simp [rebuildGo]
  | cons pl rest ih =>
    by_cases h1 : pl.type = "Input"
    · cases i with
      | zero => simp [rebuildGo, rebuildLayerStep, changedAfter, h1]
      | succ j => simp [rebuildGo, changedAfter, inPlaceEff, h1, ih]
    · by_cases h2 : inPlaceShape pl = true
      · cases i with
        | zero => simp [rebuildGo, rebuildLayerStep, changedAfter, h1, h2]
        | succ j => simp [rebuildGo, changedAfter, inPlaceEff, h1, h2, ih]
      · cases i with
        | zero => simp [rebuildGo, rebuildLayerStep, changedAfter, h1, h2]
        | succ j => simp [rebuildGo, changedAfter, inPlaceEff, h1, h2, ih]

/-- The accumulated rename dictionary over a concatenation. -/
theorem changedAfter_append (l1 l2 : List LayerParameter)
    (changed : List (String × String)) :
    changedAfter changed (l1 ++ l2) = changedAfter (changedAfter changed l1) l2 := by
  induction l1 generalizing changed with
  | nil => simp [changedAfter]
  | cons pl rest ih =>
    by_cases h : inPlaceEff pl = true
    · simp [changedAfter, h, ih]
    · simp [changedAfter, h, ih]

/-- Looking up a tensor name in the accumulated rename dictionary yields the
name of the last in-place layer of the prefix that renamed it. -/
theorem lookup_changedAfter (pre : List LayerParameter)
    (changed : List (String × String)) (b : String) (j : Nat) (hj : j < pre.length)
    (heff : inPlaceEff (pre.get ⟨j, hj⟩) = true)
    (hkey : (pre.get ⟨j, hj⟩).top.headD "" = b)
    (hlast : ∀ k (hk : k < pre.length), j < k → inPlaceEff (pre.get ⟨k, hk⟩) = true →
        (pre.get ⟨k, hk⟩).top.headD "" ≠ b) :
    List.lookup b (changedAfter changed pre) = some ((pre.get ⟨j, hj⟩).name) := by
  induction pre using List.reverseRecOn generalizing changed with
  | nil => exact absurd hj (by simp)
  | append_singleton pre2 l ih =>
    rw [changedAfter_append]
    have hstep : ∀ (hl : inPlaceEff l = true),
        changedAfter (changedAfter changed pre2) [l] =
          (l.top.headD "", l.name) :: changedAfter changed pre2 := by
      intro hl
      simp [changedAfter, hl]
    have hstep2 : ∀ (hl : ¬inPlaceEff l = true),
        changedAfter (changedAfter changed pre2) [l] = changedAfter changed pre2 := by
      intro hl
      simp [changedAfter, hl]
    rcases Nat.lt_or_ge j pre2.length with hj2 | hj2
    · -- the renamer lies in the strict prefix; the appended layer either is
      -- not an effective in-place layer or renames a different tensor
      have hget : (pre2 ++ [l]).get ⟨j, hj⟩ = pre2.get ⟨j, hj2⟩ := by
        simp only [List.get_eq_getElem]
        exact List.getElem_append_left hj2
      rw [hget] at heff hkey ⊢
      have hrec := ih changed hj2 heff hkey (fun k hk hjk hke => by
        have h5 := hlast k (by simp; omega) hjk
        simp only [List.get_eq_getElem] at h5 hke ⊢
        rw [List.getElem_append_left hk] at h5
        exact h5 hke)
      by_cases hl : inPlaceEff l = true
      · have hne : l.top.headD "" ≠ b := by
          have h5 := hlast pre2.length (by simp) (by omega)
          simp only [List.get_eq_getElem] at h5
          rw [List.getElem_concat_length _ _ _ rfl] at h5
          exact h5 hl
        rw [hstep hl]
        have hbne : (b == l.top.headD "") = false :=
          beq_eq_false_iff_ne.mpr (fun h => hne h.symm)
        simp only [List.lookup, hbne]
        exact hrec
      · rw [hstep2 hl]
        exact hrec
    · -- the renamer is the appended layer itself
      have hj3 : j = pre2.length := by
        have h6 := hj
        simp only [List.length_append, List.length_singleton] at h6
        omega
      subst hj3
      have hget : (pre2 ++ [l]).get ⟨pre2.length, hj⟩ = l := by
        simp only [List.get_eq_getElem]
        exact List.getElem_concat_length _ _ _ rfl _
      rw [hget] at heff hkey ⊢
      rw [hstep heff]
      have hbeq : (b == l.top.headD "") = true := by
        rw [hkey]
        simp
      simp only [List.lookup, hbeq]

/-- Pointwise view of the bottom-name rewriting. -/
theorem rewriteNames_getElem? (ch : List (String × String)) (bs : List String) (i : Nat) :
    (rewriteNames ch bs)[i]? = (bs[i]?).map (fun b => (List.lookup b ch).getD b) := by
  simp [rewriteNames]

/-- `getElem` form of the pointwise normalizer characterization. -/
theorem rebuild_layers_get (layers : List LayerParameter) (i : Nat)
    (h : i < layers.length) (h2 : i < ((_rebuild_layers layers).1).length) :
    ((_rebuild_layers layers).1).get ⟨i, h2⟩ =
      rebuildLayerStep (changedAfter [] (layers.take i)) (layers.get ⟨i, h⟩) := by
  have hq := rebuildGo_getElem? layers [] [] i
  rw [List.getElem?_eq_getElem h] at hq
  have h2' : i < (rebuildGo [] [] layers).1.length := h2
  rw [List.getElem?_eq_getElem h2'] at hq
  simp only [Option.map_some', Option.some.injEq] at hq
  show (rebuildGo [] [] layers).1.get ⟨i, h2'⟩ = _
  rw [List.get_eq_getElem]
  exact hq

/-- The output names produced for one layer by the normalizer. -/
theorem rebuildLayerStep_top (ch : List (String × String)) (pl : LayerParameter) :
    (rebuildLayerStep ch pl).top =
      if inPlaceEff pl = true then [pl.name] else pl.top := by
  by_cases h1 : pl.type = "Input"
  · simp [rebuildLayerStep, inPlaceEff, h1]
  · by_cases h2 : inPlaceShape pl = true
    · simp [rebuildLayerStep, inPlaceEff, h1, h2]
    · simp [rebuildLayerStep, inPlaceEff, h1, h2]

/-- The input names produced for one non-`Input` layer by the normalizer. -/
theorem rebuildLayerStep_bottom (ch : List (String × String)) (pl : LayerParameter)
    (h1 : pl.type ≠ "Input") :
    (rebuildLayerStep ch pl).bottom = rewriteNames ch pl.bottom := by
  by_cases h2 : inPlaceShape pl = true
  · simp [rebuildLayerStep, h1, h2]
  · simp [rebuildLayerStep, h1, h2]

/-- C3: after `_rebuild_layers` runs on a well-formed layer list
(pairwise-distinct layer names; distinct output names among the layers it
does not rename, i.e. `Input` layers and non-in-place layers; no renamed
layer's name colliding with such an output name):
(a) no two layers share an output tensor name;
(b) every in-place layer's final output name equals its own layer name;
(c) every later non-`Input` layer's input reference to a pre-rename tensor
name resolves to the most recent renaming layer's new name. -/
theorem rebuild_layers_normalization (layers : List LayerParameter)
    (Hname : ∀ i (hi : i < layers.length), ∀ j (hj : j < layers.length), i ≠ j →
        (layers.get ⟨i, hi⟩).name ≠ (layers.get ⟨j, hj⟩).name)
    (Htop : ∀ i (hi : i < layers.length), ∀ j (hj : j < layers.length), i ≠ j →
        ¬inPlaceEff (layers.get ⟨i, hi⟩) = true →
        ¬inPlaceEff (layers.get ⟨j, hj⟩) = true →
        ∀ t, t ∈ (layers.get ⟨i, hi⟩).top → t ∉ (layers.get ⟨j, hj⟩).top)
    (Hcross : ∀ i (hi : i < layers.length), ∀ j (hj : j < layers.length),
        ¬inPlaceEff (layers.get ⟨i, hi⟩) = true →
        inPlaceEff (layers.get ⟨j, hj⟩) = true →
        (layers.get ⟨j, hj⟩).name ∉ (layers.get ⟨i, hi⟩).top) :
    (∀ i j (hi : i < ((_rebuild_layers layers).1).length)
        (hj : j < ((_rebuild_layers layers).1).length), i ≠ j →
        ∀ t, t ∈ (((_rebuild_layers layers).1).get ⟨i, hi⟩).top →
          t ∉ (((_rebuild_layers layers).1).get ⟨j, hj⟩).top)
    ∧ (∀ i (hi : i < layers.length) (hi2 : i < ((_rebuild_layers layers).1).length),
        inPlaceEff (layers.get ⟨i, hi⟩) = true →
        (((_rebuild_layers layers).1).get ⟨i, hi2⟩).top = [(layers.get ⟨i, hi⟩).name])
    ∧ (∀ i j b idx (hi : i < layers.length) (hj : j < layers.length)
        (hi2 : i < ((_rebuild_layers layers).1).length), j < i →
        inPlaceEff (layers.get ⟨j, hj⟩) = true →
        (layers.get ⟨j, hj⟩).top.headD "" = b →
        (∀ k (hk : k < layers.length), j < k → k < i →
            inPlaceEff (layers.get ⟨k, hk⟩) = true →
            (layers.get ⟨k, hk⟩).top.headD "" ≠ b) →
        (layers.get ⟨i, hi⟩).type ≠ "Input" →
        ((layers.get ⟨i, hi⟩).bottom).get? idx = some b →
        ((((_rebuild_layers layers).1).get ⟨i, hi2⟩).bottom).get? idx =
          some ((layers.get ⟨j, hj⟩).name)) := by
  have hlen : ((_rebuild_layers layers).1).length = layers.length :=
    rebuildGo_length layers [] []
  refine ⟨?_, ?_, ?_⟩
  · -- (a) uniqueness of output names
    intro i j hi hj hne t hti htj
    have hi' : i < layers.length := hlen ▸ hi
    have hj' : j < layers.length := hlen ▸ hj
    rw [rebuild_layers_get layers i hi' hi, rebuildLayerStep_top] at hti
    rw [rebuild_layers_get layers j hj' hj, rebuildLayerStep_top] at htj
    by_cases ei : inPlaceEff (layers.get ⟨i, hi'⟩) = true
      <;> by_cases ej : inPlaceEff (layers.get ⟨j, hj'⟩) = true
    · rw [if_pos ei] at hti
      rw [if_pos ej] at htj
      simp only [List.mem_singleton] at hti htj
      exact Hname i hi' j hj' hne (hti.symm.trans htj ▸ rfl)
    · rw [if_pos ei] at hti
      rw [if_neg ej] at htj
      simp only [List.mem_singleton] at hti
      exact Hcross j hj' i hi' ej ei (hti ▸ htj)
    · rw [if_neg ei] at hti
      rw [if_pos ej] at htj
      simp only [List.mem_singleton] at htj
      exact Hcross i hi' j hj' ei ej (htj ▸ hti)
    · rw [if_neg ei] at hti
      rw [if_neg ej] at htj
      exact Htop i hi' j hj' hne ei ej t hti htj
  · -- (b) in-place layers are renamed to their own layer name
    intro i hi hi2 heff
    rw [rebuild_layers_get layers i hi hi2, rebuildLayerStep_top, if_pos heff]
  · -- (c) later references resolve through the most recent rename
    intro i j b idx hi hj hi2 hji heff hkey hlast hnin hbot
    rw [List.get?_eq_getElem?] at hbot ⊢
    rw [rebuild_layers_get layers i hi hi2,
        rebuildLayerStep_bottom _ _ hnin, rewriteNames_getElem?, hbot]
    have hjt : j < (layers.take i).length := by
      simp only [List.length_take]
      omega
    have hget : (layers.take i).get ⟨j, hjt⟩ = layers.get ⟨j, hj⟩ := by
      simp only [List.get_eq_getElem, List.getElem_take]
    have hlook := lookup_changedAfter (layers.take i) [] b j hjt
      (by rw [hget]; exact heff) (by rw [hget]; exact hkey)
      (fun k hk hjk hke => by
        have hk2 : k < layers.length := by
          simp only [List.length_take] at hk
          omega
        have hki : k < i := by
          simp only [List.length_take] at hk
          omega
        have hgetk : (layers.take i).get ⟨k, hk⟩ = layers.get ⟨k, hk2⟩ := by
          simp only [List.get_eq_getElem, List.getElem_take]
        rw [hgetk] at hke ⊢
        exact hlast k hk2 hjk hki hke)
    rw [hget] at hlook
    simp [hlook]

/-- A concrete model with an in-place chain: a convolution producing `x`,
two in-place activations on `x`, then a consumer of `x`. -/
def chainLayers : List LayerParameter :=
  [{ name := "c1", type := "Convolution", bottom := ["data"], top := ["x"] },
   { name := "r1", type := "ReLU", bottom := ["x"], top := ["x"] },
   { name := "t1", type := "TanH", bottom := ["x"], top := ["x"] },
   { name := "s1", type := "Sigmoid", bottom := ["x"], top := ["y"] }]

/-- C3 witness: on `chainLayers` the renamed outputs are unique, the
in-place ReLU is renamed to its own name, and the final consumer's
reference to `x` resolves to the latest renamer `t1`. -/
theorem rebuild_layers_normalization_witness :
    "x" ∉ (((_rebuild_layers chainLayers).1).get ⟨1, by decide⟩).top
    ∧ (((_rebuild_layers chainLayers).1).get ⟨1, by decide⟩).top = ["r1"]
    ∧ ((((_rebuild_layers chainLayers).1).get ⟨3, by decide⟩).bottom).get? 0 =
        some "t1" := by
  have h := rebuild_layers_normalization chainLayers
    (by decide) (by decide) (by decide)
  refine ⟨?_, ?_, ?_⟩
  · exact h.1 0 1 (by decide) (by decide) (by decide) "x" (by decide)
  · exact h.2.1 1 (by decide) (by decide) (by decide)
  · exact h.2.2 3 2 "x" 0 (by decide) (by decide) (by decide) (by decide)
      (by decide) (by decide) (by decide) (by decide) (by decide)

/-! ## C1: the fusion pass fuses on type adjacency alone -/

/-- Characterization of the fusion scan relative to its accumulators.  The
ghost parameter `pr` is the layer `temp_layers["bn"]` holds whenever the
current layer is a Scale whose predecessor is a BatchNorm (`none` before the
first iteration); the emitted names, redirection record and cached-parameter
names are exactly the adjacency-only descriptions. -/
theorem opFuseGo_spec (init : List (String × LayerParameter)) :
    ∀ (rest : List LayerParameter) (prev pr tb ts : Option LayerParameter)
      (changed : List (String × String)) (acc : List LayerParameter)
      (nb : List (String × BnFused)) (out : FuseOut),
      opFuseGo init prev tb ts changed acc nb rest = .ok out →
      (prev.map LayerParameter.type = some "BatchNorm" →
        (rest.head?).map LayerParameter.type = some "Scale" → tb = pr) →
      out.layers.map LayerParameter.name =
          acc.map LayerParameter.name ++
            fuseKeptNames pr (prev.map LayerParameter.type) rest
      ∧ out.changed = changed ++ fuseChangedSpec pr (prev.map LayerParameter.type) rest
      ∧ out.newBn.map Prod.fst =
          nb.map Prod.fst ++ fusedBnNames pr (prev.map LayerParameter.type) rest := by
  intro rest
  induction rest with
  | nil =>
    intro prev pr tb ts changed acc nb out hok H
    simp only [opFuseGo, Except.ok.injEq] at hok
    subst hok
    simp [fuseKeptNames, fuseChangedSpec, fusedBnNames]
  | cons pl rest2 ih =>
    intro prev pr tb ts changed acc nb out hok H
    by_cases h1 : pl.type = "Input"
    · simp only [opFuseGo] at hok
      rw [if_pos h1] at hok
      have Hnext : (some pl).map LayerParameter.type = some "BatchNorm" →
          (rest2.head?).map LayerParameter.type = some "Scale" → tb = some pl := by
        intro hbn _
        simp [h1] at hbn
      obtain ⟨g1, g2, g3⟩ := ih (some pl) (some pl) tb ts changed (acc ++ [pl]) nb out hok Hnext
      refine ⟨?_, ?_, ?_⟩
      · rw [g1]
        simp [fuseKeptNames, h1]
      · rw [g2]
        simp [fuseChangedSpec, h1]
      · rw [g3]
        simp [fusedBnNames, h1]
    · by_cases h2 : pl.type = "BatchNorm"
      · by_cases h3 : (rest2.head?).map LayerParameter.type = some "Scale"
        · simp only [opFuseGo] at hok
          rw [if_neg h1, if_pos h2, if_pos h3] at hok
          obtain ⟨g1, g2, g3⟩ := ih (some pl) (some pl) (some pl) ts changed acc nb out hok
            (fun _ _ => rfl)
          refine ⟨?_, ?_, ?_⟩
          · rw [g1]
            simp [fuseKeptNames, h1, h2, h3]
          · rw [g2]
            simp [fuseChangedSpec, h1, h2, h3]
          · rw [g3]
            simp [fusedBnNames, h1, h2, h3]
        · simp only [opFuseGo] at hok
          rw [if_neg h1, if_pos h2, if_neg h3] at hok
          have Hnext : (some pl).map LayerParameter.type = some "BatchNorm" →
              (rest2.head?).map LayerParameter.type = some "Scale" →
              (none : Option LayerParameter) = some pl := by
            intro _ hsc
            exact absurd hsc h3
          obtain ⟨g1, g2, g3⟩ := ih (some pl) (some pl) none none changed
            (acc ++ [{ pl with bottom := rewriteNames changed pl.bottom }]) nb out hok Hnext
          refine ⟨?_, ?_, ?_⟩
          · rw [g1]
            simp [fuseKeptNames, h1, h2, h3]
          · rw [g2]
            simp [fuseChangedSpec, h1, h2, h3]
          · rw [g3]
            simp [fusedBnNames, h1, h2, h3]
      · by_cases h4 : pl.type = "Scale"
        · by_cases h5 : prev.map LayerParameter.type = some "BatchNorm"
          · have htb : tb = pr := H h5 (by simp [h4])
            subst htb
            cases tb with
            | none =>
              simp only [opFuseGo] at hok
              rw [if_neg h1, if_neg h2, if_pos h4, if_pos h5] at hok
              obtain ⟨g1, g2, g3⟩ := ih (some pl) (some pl) none (some pl) changed acc nb out hok
                (by
                  intro hbn _
                  simp [h4] at hbn)
              refine ⟨?_, ?_, ?_⟩
              · rw [g1]
                simp [fuseKeptNames, h1, h2, h4, h5]
              · rw [g2]
                simp [fuseChangedSpec, h1, h2, h4, h5]
              · rw [g3]
                simp [fusedBnNames, h1, h2, h4, h5]
            | some bn =>
              simp only [opFuseGo] at hok
              rw [if_neg h1, if_neg h2, if_pos h4, if_pos h5] at hok
              cases hf : fuse_op init bn pl with
              | error e =>
                rw [hf] at hok
                simp [Bind.bind, Except.bind] at hok
              | ok fused =>
                rw [hf] at hok
                simp only [Bind.bind, Except.bind] at hok
                obtain ⟨g1, g2, g3⟩ := ih (some pl) (some pl) (some bn) (some pl)
                  (changed ++ [(pl.name, fuseTarget bn)]) (acc ++ [bn])
                  (nb ++ [(bn.name, fused)]) out hok
                  (by
                    intro hbn _
                    simp [h4] at hbn)
                refine ⟨?_, ?_, ?_⟩
                · rw [g1]
                  simp [fuseKeptNames, h1, h2, h4, h5]
                · rw [g2]
                  simp [fuseChangedSpec, h1, h2, h4, h5]
                · rw [g3]
                  simp [fusedBnNames, h1, h2, h4, h5]
          · simp only [opFuseGo] at hok
            rw [if_neg h1, if_neg h2, if_pos h4, if_neg h5] at hok
            have Hnext : (some pl).map LayerParameter.type = some "BatchNorm" →
                (rest2.head?).map LayerParameter.type = some "Scale" →
                (none : Option LayerParameter) = some pl := by
              intro hbn _
              simp [h4] at hbn
            obtain ⟨g1, g2, g3⟩ := ih (some pl) (some pl) none none changed
              (acc ++ [{ pl with bottom := rewriteNames changed pl.bottom }]) nb out hok Hnext
            refine ⟨?_, ?_, ?_⟩
            · rw [g1]
              simp [fuseKeptNames, h1, h2, h4, h5]
            · rw [g2]
              simp [fuseChangedSpec, h1, h2, h4, h5]
            · rw [g3]
              simp [fusedBnNames, h1, h2, h4, h5]
        · simp only [opFuseGo] at hok
          rw [if_neg h1, if_neg h2, if_neg h4] at hok
          have Hnext : (some pl).map LayerParameter.type = some "BatchNorm" →
              (rest2.head?).map LayerParameter.type = some "Scale" →
              (none : Option LayerParameter) = some pl := by
            intro hbn _
            simp [h2] at hbn
          obtain ⟨g1, g2, g3⟩ := ih (some pl) (some pl) none none changed
            (acc ++ [{ pl with bottom := rewriteNames changed pl.bottom }]) nb out hok Hnext
          refine ⟨?_, ?_, ?_⟩
          · rw [g1]
            simp [fuseKeptNames, h1, h2, h4]
          · rw [g2]
            simp [fuseChangedSpec, h1, h2, h4]
          · rw [g3]
            simp [fusedBnNames, h1, h2, h4]

/-- C1 (amended): `op_fuse` merges a BatchNorm with the following Scale
layer exactly when the Scale is immediately adjacent by type — the Scale's
input tensor names are never consulted.  The kept layer names, the
redirection record and the cached-parameter names all equal their
adjacency-only descriptions (in which a Scale whose code-predecessor — the
previous layer, wrapping to the last layer for the first position — is a
BatchNorm is dropped, and every other layer passes through). -/
theorem op_fuse_adjacency_only (predict_layer : List LayerParameter)
    (init_layer_dict : List (String × LayerParameter)) (out : FuseOut)
    (hok : op_fuse predict_layer init_layer_dict = .ok out) :
    out.layers.map LayerParameter.name =
        fuseKeptNames none ((predict_layer.getLast?).map LayerParameter.type) predict_layer
    ∧ out.changed =
        fuseChangedSpec none ((predict_layer.getLast?).map LayerParameter.type) predict_layer
    ∧ out.newBn.map Prod.fst =
        fusedBnNames none ((predict_layer.getLast?).map LayerParameter.type) predict_layer := by
  have h := opFuseGo_spec init_layer_dict predict_layer predict_layer.getLast?
    none none none [] [] [] out hok (fun _ _ => rfl)
  simpa using h

/-- C1 example layers: a BatchNorm whose output `bnout` is not the input of
the adjacent Scale (which reads `other` instead). -/
def bnEx : LayerParameter :=
  { name := "bn1", type := "BatchNorm", bottom := ["data"], top := ["bnout"] }

def scEx : LayerParameter :=
  { name := "sc1", type := "Scale", bottom := ["other"], top := ["scout"] }

def initEx : List (String × LayerParameter) :=
  [("bn1", { name := "bn1",
             blobs := [{ data := [1], shape := [1] }, { data := [1], shape := [1] },
                       { data := [1], shape := [1] }] }),
   ("sc1", { name := "sc1", blobs := [{ data := [2], shape := [1] }] })]

/-- The fusion output on `[bnEx, scEx]`. -/
def fuseOutEx : FuseOut :=
  ⟨[bnEx], [("sc1", "bnout")],
   [("bn1", ⟨[1], [1], 1 / 100000, [2], [0]⟩)]⟩

/-- Concrete evaluation of the fusion pass on the mismatched pair. -/
theorem op_fuse_ex_eval : op_fuse [bnEx, scEx] initEx = .ok fuseOutEx := by
  simp [op_fuse, opFuseGo, fuse_op, dictGet, pyIndex, npTruthy, npMul, fuseTarget,
        List.lookup, Bind.bind, Except.bind, Pure.pure, Except.pure,
        bnEx, scEx, initEx, fuseOutEx]

/-- C1 counterexample: the Scale's sole input (`other`) differs from the
BatchNorm's output (`bnout`), yet `op_fuse` fuses the pair anyway: the Scale
layer is dropped, its output is redirected and merged parameters are
cached.  This refutes the claim that fusion happens only when the Scale's
sole input equals the BatchNorm's output. -/
theorem op_fuse_fuses_despite_input_mismatch :
    scEx.bottom = ["other"] ∧ bnEx.top = ["bnout"] ∧ ("other" : String) ≠ "bnout"
    ∧ op_fuse [bnEx, scEx] initEx = .ok fuseOutEx
    ∧ fuseOutEx.layers.map LayerParameter.name = ["bn1"] := by
  refine ⟨rfl, rfl, by decide, op_fuse_ex_eval, rfl⟩

/-- C1 witness for the amended claim: the adjacency-only characterization
applied to the concrete mismatched pair. -/
theorem op_fuse_adjacency_only_witness :
    fuseOutEx.layers.map LayerParameter.name =
        fuseKeptNames none (([bnEx, scEx].getLast?).map LayerParameter.type) [bnEx, scEx]
    ∧ fuseOutEx.changed =
        fuseChangedSpec none (([bnEx, scEx].getLast?).map LayerParameter.type) [bnEx, scEx]
    ∧ fuseOutEx.newBn.map Prod.fst =
        fusedBnNames none (([bnEx, scEx].getLast?).map LayerParameter.type) [bnEx, scEx] :=
  op_fuse_adjacency_only [bnEx, scEx] initEx fuseOutEx op_fuse_ex_eval

end Caffe
